import Mathlib

/-
Verification of the kissStepper motor-motion controller (kissStepper.cpp).

The development shallowly embeds the accelerating controller (class
kissStepper).  C machine integers are modelled by Nat/Int; the uint32
subtraction and addition used for pulse timing are modelled with an explicit
modulus 2^32.  The float fields (stepInterval, constMult) are modelled as
exact rationals; the C cast from float to uint32_t (truncation toward zero
for the nonnegative values that occur here) is modelled by toU32.

The class header (kissStepper.h) is not part of the sources; the small inline
members it declares (the state enumeration, calcMaxAccelDist, calcDecelDist,
accelStep, decelStep, getDistRemaining, updatePos) are modelled from the
specification, each marked in its doc comment.  The platform sqrt used for
the initial step interval is an external primitive and enters prepareMove as
an explicit parameter sqrt2a, standing for the value sqrt(2.0 * accel).
Hardware pin writes and the busy wait have no observable effect on the
controller state and are dropped.
-/

namespace KissStepper

/-- Modelled from the spec: the controller states Stopped, Starting,
Cruising (RUN), Accelerating (ACCEL), Decelerating (DECEL).  The source
compares states with the order STOPPED < STARTING < moving phases; the
predicate isMoving captures the comparison kissState > STATE_STARTING. -/
inductive KissState where
  | STOPPED
  | STARTING
  | RUN
  | ACCEL
  | DECEL
deriving DecidableEq, Repr

open KissState

/-- One second in microseconds, the unit conversion constant of the source. -/
def ONE_SECOND : Nat := 1000000

/-- Modulus of the 32-bit unsigned arithmetic used for timing. -/
def U32 : Nat := 4294967296

/-- The state of a kissStepper object: configuration, position, speed
profile, timing state and controller state, one field per data member. -/
structure Stepper where
  forwardLimit : Int
  reverseLimit : Int
  maxSpeed : Nat
  accel : Nat
  enabled : Bool
  dir : Bool
  pos : Int
  distMoved : Nat
  distAccel : Nat
  distRun : Nat
  distTotal : Nat
  constMult : Rat
  stepInterval : Rat
  stepIntervalWhole : Nat
  maxSpeedStepInterval : Nat
  lastStepTime : Nat
  kissState : KissState
deriving DecidableEq, Repr

/-- Moving phases are those the source selects with kissState > STATE_STARTING. -/
def isMoving : KissState → Bool
  | RUN => true
  | ACCEL => true
  | DECEL => true
  | _ => false

/-- The C cast of a nonnegative float to uint32_t: truncation toward zero. -/
def toU32 (q : Rat) : Nat := (⌊q⌋).toNat

/-- The uint32 difference curTime - lastStepTime computed by the source:
subtraction modulo 2^32. -/
def sub32 (a b : Nat) : Nat := (((a : Int) - (b : Int)) % (U32 : Int)).toNat

/-- The Arduino constrain macro: clamp x into the interval from lo to hi. -/
def constrain (x lo hi : Int) : Int :=
  if x < lo then lo else if hi < x then hi else x

/-- Distance between two positions as the source computes it:
(target > pos) ? (target - pos) : (pos - target), a nonnegative value. -/
def distBetween (p t : Int) : Nat := (if p < t then t - p else p - t).toNat

/-- Modelled from the spec: updatePos is declared in the missing header; per
section 4.5 it commits distanceMoved into currentPosition applying the
direction sign and zeroes the moved distance. -/
def updatePos (s : Stepper) : Stepper :=
  { s with
    pos := if s.dir then s.pos + (s.distMoved : Int) else s.pos - (s.distMoved : Int)
    distMoved := 0 }

/-- kissStepper::stop - commit the position and zero the profile distances. -/
def stop (s : Stepper) : Stepper :=
  let s1 := updatePos s
  { s1 with distAccel := 0, distRun := 0, distTotal := 0, kissState := STOPPED }

/-- kissStepperNoAccel::enable - assert the enable output. -/
def enable (s : Stepper) : Stepper := { s with enabled := true }

/-- kissStepperNoAccel::disable - stop, then deassert the enable output. -/
def disable (s : Stepper) : Stepper :=
  let s1 := stop s
  { s1 with enabled := false }

/-- Modelled from the spec: calcMaxAccelDist is declared in the missing
header; per section 4.1 step 5 it is maxSpeed^2 / (2 * acceleration), the
steps needed to ramp from 0 to maxSpeed, in the integer arithmetic of the
source. -/
def calcMaxAccelDist (s : Stepper) : Nat :=
  s.maxSpeed * s.maxSpeed / (2 * s.accel)

/-- Modelled from the spec: the incremental acceleration update of section
4.3, the next interval for acceleration is T * (1 - c * T^2). -/
def accelStep (T c : Rat) : Rat := T * (1 - c * T ^ 2)

/-- Modelled from the spec: the incremental deceleration update of section
4.3, the next interval for deceleration is T * (1 + c * T^2). -/
def decelStep (T c : Rat) : Rat := T * (1 + c * T ^ 2)

/-- Modelled from the spec: getDistRemaining is declared in the missing
header; the distance remaining in the current move is
distanceTotal - distanceMoved. -/
def getDistRemaining (s : Stepper) : Nat := s.distTotal - s.distMoved

/-- Modelled from the spec: calcDecelDist is declared in the missing header;
per section 4.4 it is the 1/(2*c*T^2)-style distance-to-stop from the current
interval, truncated to an unsigned integer. -/
def calcDecelDist (s : Stepper) : Nat :=
  toU32 (1 / (2 * s.constMult * s.stepInterval ^ 2))

/-- kissStepper::prepareMove.  The parameter sqrt2a is the value the platform
sqrt returned for 2.0 * accel.  Returns the C return value paired with the
updated object.  The branch adding one to the whole interval in the
acceleration case mirrors the source line comparing
(m_stepIntervalWhole - minSpeedStepInterval) > 0.5, a difference of two equal
uint32 values. -/
def prepareMove (sqrt2a : Rat) (target : Int) (s : Stepper) : Bool × Stepper :=
  if s.kissState = STOPPED then
    let t := constrain target s.reverseLimit s.forwardLimit
    if t ≠ s.pos ∧ 0 < s.maxSpeed then
      let s1 := if s.enabled then s else enable s
      let s2 := { s1 with dir := decide (s1.pos < t), kissState := STARTING }
      let distRemaining := distBetween s2.pos t
      let s3 := { s2 with distAccel := 0, distRun := 0, distTotal := distRemaining }
      if s3.accel ≠ 0 then
        let dmax := calcMaxAccelDist s3
        let s4 :=
          if distRemaining / 2 ≤ dmax then
            { s3 with distAccel := distRemaining / 2, distRun := distRemaining / 2 }
          else
            { s3 with distAccel := dmax, distRun := distRemaining - dmax }
        let cm : Rat := ((s4.accel : Rat) / (ONE_SECOND : Rat)) / (ONE_SECOND : Rat)
        let si : Rat := (ONE_SECOND : Rat) / sqrt2a
        let minSpeedStepInterval : Nat := toU32 si
        let w0 := minSpeedStepInterval
        let w := if (1 : Rat) / 2 < ((w0 - minSpeedStepInterval : Nat) : Rat) then w0 + 1 else w0
        (true, { s4 with
                  constMult := cm
                  stepInterval := si
                  stepIntervalWhole := w
                  maxSpeedStepInterval := ONE_SECOND / s4.maxSpeed })
      else
        let w0 := ONE_SECOND / s3.maxSpeed
        let w := if s3.maxSpeed / 2 ≤ ONE_SECOND % s3.maxSpeed then w0 + 1 else w0
        (true, { s3 with distRun := distRemaining, stepIntervalWhole := w })
    else (false, s)
  else (false, s)

/-- The body of kissStepper::move executed when a pulse is due: advance the
scheduled time, emit the pulse (observable as the increment of distMoved),
and run the phase transition logic. -/
def pulse (s : Stepper) : Stepper :=
  let s1 := { s with
               lastStepTime := (s.lastStepTime + s.stepIntervalWhole) % U32
               distMoved := s.distMoved + 1 }
  if s1.kissState = RUN then
    if s1.distMoved = s1.distRun then
      if s1.distTotal = s1.distRun then stop s1
      else
        let T := decelStep s1.stepInterval s1.constMult
        { s1 with kissState := DECEL, stepInterval := T, stepIntervalWhole := toU32 T }
    else s1
  else if s1.kissState = ACCEL then
    if s1.distMoved = s1.distAccel then
      if s1.distRun ≠ s1.distAccel then
        { s1 with
           kissState := RUN
           stepInterval := (s1.maxSpeedStepInterval : Rat)
           stepIntervalWhole := s1.maxSpeedStepInterval }
      else
        let T := decelStep s1.stepInterval s1.constMult
        { s1 with kissState := DECEL, stepInterval := T, stepIntervalWhole := toU32 T }
    else
      let T := accelStep s1.stepInterval s1.constMult
      { s1 with stepInterval := T, stepIntervalWhole := toU32 T }
  else
    if s1.distMoved = s1.distTotal then stop s1
    else
      let T := decelStep s1.stepInterval s1.constMult
      { s1 with stepInterval := T, stepIntervalWhole := toU32 T }

/-- kissStepper::move, the advance operation, called with the current value
of the microsecond clock. -/
def move (curTime : Nat) (s : Stepper) : Stepper :=
  if isMoving s.kissState then
    if s.stepIntervalWhole ≤ sub32 curTime s.lastStepTime then pulse s else s
  else if s.kissState = STARTING then
    let s1 := { s with lastStepTime := curTime % U32 }
    if s1.distAccel ≠ 0 then { s1 with kissState := ACCEL }
    else if s1.distRun ≠ 0 then { s1 with kissState := RUN }
    else if s1.distTotal ≠ 0 then { s1 with kissState := DECEL }
    else stop s1
  else s

/-- kissStepper::decelerate. -/
def decelerate (s : Stepper) : Stepper :=
  if isMoving s.kissState then
    if 0 < s.accel then
      let distRemaining := getDistRemaining s
      let maxDecelDist := calcDecelDist s
      let decelDist := if distRemaining < maxDecelDist then distRemaining else maxDecelDist
      { s with
         distAccel := 0
         distRun := 0
         distTotal := s.distMoved + decelDist
         kissState := DECEL }
    else stop s
  else s

/-- Repeated calls of the advance operation at the given sequence of clock
readings. -/
def runMove (s : Stepper) (ts : List Nat) : Stepper :=
  ts.foldl (fun a ct => move ct a) s

/-- Round-to-nearest with ties rounded up of the quotient n / m, written on
the natural numbers; this follows the wording of the spec, for comparison
with what the source stores. -/
def roundNearestTiesUp (n m : Nat) : Nat := (2 * n + m) / (2 * m)

/-- Facts common to all phases of an active move from position p toward the
clamped target t: the position is still the start position, the direction and
the total distance were derived from p and t, and the move is nontrivial. -/
def baseInv (p t : Int) (s : Stepper) : Prop :=
  s.pos = p ∧ s.dir = decide (p < t) ∧ s.distTotal = distBetween p t ∧ t ≠ p

/-- The per-phase invariant of a move from p toward t, indexed by the
controller state. -/
def stateInv (p t : Int) (s : Stepper) : KissState → Prop
  | STOPPED => s.pos = t ∧ s.distMoved = 0 ∧ s.distAccel = 0 ∧ s.distRun = 0 ∧
      s.distTotal = 0
  | STARTING => baseInv p t s ∧ s.distMoved = 0 ∧ s.distAccel ≤ s.distRun ∧
      s.distRun ≤ s.distTotal ∧ (s.distRun = s.distAccel → s.distRun < s.distTotal)
  | ACCEL => baseInv p t s ∧ s.distMoved < s.distAccel ∧ s.distAccel ≤ s.distRun ∧
      s.distRun ≤ s.distTotal ∧ (s.distRun = s.distAccel → s.distRun < s.distTotal)
  | RUN => baseInv p t s ∧ s.distMoved < s.distRun ∧ s.distAccel ≤ s.distRun ∧
      s.distRun ≤ s.distTotal
  | DECEL => baseInv p t s ∧ s.distMoved < s.distTotal ∧ s.distAccel ≤ s.distRun ∧
      s.distRun ≤ s.distTotal

/-- The invariant of a move from p toward t, at the current state. -/
def moveInv (p t : Int) (s : Stepper) : Prop := stateInv p t s s.kissState

/-- The profile invariant stated by the spec: the moved distance never
exceeds the total and the phase boundaries are ordered. -/
def profileInv (s : Stepper) : Prop :=
  s.distMoved ≤ s.distTotal ∧ s.distAccel ≤ s.distRun ∧ s.distRun ≤ s.distTotal

/-- The extra invariant of a triangular move: the cruise boundary equals the
acceleration boundary and the Cruising state is never active. -/
def triInv (s : Stepper) : Prop := s.distRun = s.distAccel ∧ s.kissState ≠ RUN

/-- A quiescent controller used as the base object of the concrete runs:
stopped at the origin with symmetric limits and no acceleration. -/
def idle : Stepper :=
  { forwardLimit := 100, reverseLimit := -100, maxSpeed := 4, accel := 0,
    enabled := true, dir := true, pos := 0, distMoved := 0, distAccel := 0,
    distRun := 0, distTotal := 0, constMult := 0, stepInterval := 0,
    stepIntervalWhole := 0, maxSpeedStepInterval := 0, lastStepTime := 0,
    kissState := STOPPED }

/-- A concrete decelerating state whose next pulse recomputes the interval to
the fractional value 15.6 microseconds. -/
def sC4 : Stepper :=
  { idle with
    kissState := DECEL
    stepInterval := 10
    constMult := 7/1250
    distMoved := 0
    distTotal := 5
    stepIntervalWhole := 1 }

/-- The idle controller configured with maxSpeed 1000 and acceleration 2;
with sqrt(2 * accel) = 2 every float value of the resulting moves is an exact
rational. -/
def accel2 : Stepper := { idle with maxSpeed := 1000, accel := 2 }

/-- The planner output of prepareMove(2) on accel2: a triangular profile of
one acceleration step and one deceleration step. -/
def sR1 : Stepper :=
  { forwardLimit := 100, reverseLimit := -100, maxSpeed := 1000, accel := 2,
    enabled := true, dir := true, pos := 0, distMoved := 0, distAccel := 1,
    distRun := 1, distTotal := 2, constMult := 1/500000000000, stepInterval := 500000,
    stepIntervalWhole := 500000, maxSpeedStepInterval := 1000, lastStepTime := 0,
    kissState := STARTING }

/-- The state of that move after the first advance call: Accelerating. -/
def sR2 : Stepper := { sR1 with kissState := ACCEL }

/-- The state after the first pulse: one step done, Decelerating, with the
interval grown by the deceleration update. -/
def sR3 : Stepper :=
  { sR2 with
    distMoved := 1
    stepInterval := 750000
    stepIntervalWhole := 750000
    lastStepTime := 500000
    kissState := DECEL }

/-- The state after calling decelerate on sR3: the distance-to-stop truncates
to zero, so the total distance collapses to the distance already moved. -/
def sR4 : Stepper :=
  { sR3 with
    distAccel := 0
    distRun := 0
    distTotal := 1 }

/-- A concrete accelerating state used to instantiate the monotonicity of the
interval updates. -/
def sW8 : Stepper :=
  { idle with
    kissState := ACCEL
    stepInterval := 500000
    constMult := 1/500000000000
    distMoved := 0
    distAccel := 5
    distRun := 5
    distTotal := 10
    stepIntervalWhole := 500000 }

/-- The idle controller with maxSpeed 1 and acceleration 2: its maximum
acceleration distance is zero, so a trapezoidal profile starts directly in
the Cruising state at the initial interval. -/
def slow1 : Stepper := { idle with maxSpeed := 1, accel := 2 }

/-- The idle controller with the odd maxSpeed 3, for the rounding analysis of
the zero-acceleration interval. -/
def speed3 : Stepper := { idle with maxSpeed := 3 }

/-- The planner output of prepareMove(2) on slow1: a trapezoidal profile with
zero acceleration distance, whose cruise interval is the initial interval
500000 while the max-speed interval is 1000000. -/
def sT1 : Stepper :=
  { forwardLimit := 100, reverseLimit := -100, maxSpeed := 1, accel := 2,
    enabled := true, dir := true, pos := 0, distMoved := 0, distAccel := 0,
    distRun := 2, distTotal := 2, constMult := 1/500000000000, stepInterval := 500000,
    stepIntervalWhole := 500000, maxSpeedStepInterval := 1000000, lastStepTime := 0,
    kissState := STARTING }

/-- The state of that move after the first advance call: Cruising at the
initial interval. -/
def sT2 : Stepper := { sT1 with kissState := RUN }

/-- A concrete Starting state whose only nonzero distance is the cruise
distance. -/
def sC6 : Stepper :=
  { idle with
    kissState := STARTING
    distRun := 2
    distTotal := 2 }

/-- A concrete decelerating state one step into a three-step move. -/
def sC7 : Stepper :=
  { idle with
    kissState := DECEL
    accel := 2
    distMoved := 1
    distTotal := 3
    constMult := 1/500000000000
    stepInterval := 750000 }

theorem enable_if_eq (s : Stepper) :
    (if s.enabled then s else enable s) = { s with enabled := true } := by
  by_cases h : s.enabled
  · cases s
    simp_all
  · simp [h, enable]

theorem distBetween_pos {p t : Int} (h : t ≠ p) : 0 < distBetween p t := by
  unfold distBetween
  split <;> omega

theorem stop_pos_eq {p t : Int} (s : Stepper) (hpos : s.pos = p)
    (hdir : s.dir = decide (p < t)) (hd : s.distMoved = distBetween p t) :
    (stop s).pos = t := by
  show (if s.dir then s.pos + (s.distMoved : Int) else s.pos - (s.distMoved : Int)) = t
  rw [hpos, hdir, hd]
  unfold distBetween
  by_cases hlt : p < t
  · simp [hlt]
    all_goals omega
  · simp [hlt]
    all_goals omega

theorem prepareMove_cases (q : Rat) (target : Int) (s s2 : Stepper)
    (hp : prepareMove q target s = (true, s2)) :
    s.kissState = STOPPED ∧
    constrain target s.reverseLimit s.forwardLimit ≠ s.pos ∧ 0 < s.maxSpeed ∧
    s2.kissState = STARTING ∧
    s2.pos = s.pos ∧
    s2.dir = decide (s.pos < constrain target s.reverseLimit s.forwardLimit) ∧
    s2.distMoved = s.distMoved ∧
    s2.distTotal = distBetween s.pos (constrain target s.reverseLimit s.forwardLimit) ∧
    s2.maxSpeed = s.maxSpeed ∧ s2.accel = s.accel ∧
    s2.forwardLimit = s.forwardLimit ∧ s2.reverseLimit = s.reverseLimit ∧
    ((s.accel ≠ 0 ∧
        distBetween s.pos (constrain target s.reverseLimit s.forwardLimit) / 2 ≤
          calcMaxAccelDist s ∧
        s2.distAccel =
          distBetween s.pos (constrain target s.reverseLimit s.forwardLimit) / 2 ∧
        s2.distRun = s2.distAccel ∧
        s2.stepInterval = (ONE_SECOND : Rat) / q ∧
        s2.stepIntervalWhole = toU32 ((ONE_SECOND : Rat) / q) ∧
        s2.maxSpeedStepInterval = ONE_SECOND / s.maxSpeed) ∨
     (s.accel ≠ 0 ∧
        calcMaxAccelDist s <
          distBetween s.pos (constrain target s.reverseLimit s.forwardLimit) / 2 ∧
        s2.distAccel = calcMaxAccelDist s ∧
        s2.distRun =
          distBetween s.pos (constrain target s.reverseLimit s.forwardLimit) -
            calcMaxAccelDist s ∧
        s2.stepInterval = (ONE_SECOND : Rat) / q ∧
        s2.stepIntervalWhole = toU32 ((ONE_SECOND : Rat) / q) ∧
        s2.maxSpeedStepInterval = ONE_SECOND / s.maxSpeed) ∨
     (s.accel = 0 ∧ s2.distAccel = 0 ∧
        s2.distRun = distBetween s.pos (constrain target s.reverseLimit s.forwardLimit) ∧
        s2.stepIntervalWhole = ONE_SECOND / s.maxSpeed +
          (if s.maxSpeed / 2 ≤ ONE_SECOND % s.maxSpeed then 1 else 0) ∧
        s2.stepInterval = s.stepInterval)) := by
  simp only [prepareMove, enable_if_eq] at hp
  split at hp
  case isFalse hst => simp at hp
  case isTrue hst =>
  split at hp
  case isFalse hc => simp at hp
  case isTrue hc =>
  obtain ⟨hne, hms⟩ := hc
  split at hp
  case isTrue ha =>
    split at hp
    case isTrue htri =>
      injection hp with h1 h2
      subst h2
      refine ⟨hst, hne, hms, rfl, rfl, rfl, rfl, rfl, rfl, rfl, rfl, rfl, Or.inl ?_⟩
      refine ⟨ha, htri, rfl, rfl, rfl, ?_, rfl⟩
      norm_num
    case isFalse htri =>
      injection hp with h1 h2
      subst h2
      refine ⟨hst, hne, hms, rfl, rfl, rfl, rfl, rfl, rfl, rfl, rfl, rfl,
        Or.inr (Or.inl ?_)⟩
      refine ⟨ha, Nat.not_le.mp htri, rfl, rfl, rfl, ?_, rfl⟩
      norm_num
  case isFalse ha =>
    injection hp with h1 h2
    subst h2
    refine ⟨hst, hne, hms, rfl, rfl, rfl, rfl, rfl, rfl, rfl, rfl, rfl,
      Or.inr (Or.inr ⟨not_ne_iff.mp ha, rfl, rfl, ?_, rfl⟩)⟩
    split <;> simp

theorem moveInv_pulse (p t : Int) (s : Stepper) (h : moveInv p t s)
    (hmv : isMoving s.kissState = true) : moveInv p t (pulse s) := by
  unfold moveInv at *
  cases hst : s.kissState with
  | STOPPED => rw [hst] at hmv; simp [isMoving] at hmv
  | STARTING => rw [hst] at hmv; simp [isMoving] at hmv
  | RUN =>
      rw [hst] at h
      obtain ⟨⟨hpos, hdir, htot, hne⟩, hlt, h1, h2⟩ := h
      simp only [pulse, hst, reduceCtorEq, reduceIte, ite_true, ite_false, if_true,
        if_false]
      split
      case isTrue hR =>
        split
        case isTrue hT =>
          exact ⟨stop_pos_eq _ hpos hdir
            (by show s.distMoved + 1 = distBetween p t; omega), rfl, rfl, rfl, rfl⟩
        case isFalse hT =>
          refine ⟨⟨hpos, hdir, htot, hne⟩, ?_, h1, h2⟩
          show s.distMoved + 1 < s.distTotal
          omega
      case isFalse hR =>
        refine ⟨⟨hpos, hdir, htot, hne⟩, ?_, h1, h2⟩
        show s.distMoved + 1 < s.distRun
        omega
  | ACCEL =>
      rw [hst] at h
      obtain ⟨⟨hpos, hdir, htot, hne⟩, hlt, h1, h2, h3⟩ := h
      simp only [pulse, hst, reduceCtorEq, reduceIte, ite_true, ite_false, if_true,
        if_false]
      split
      case isTrue hA =>
        split
        case isTrue hR =>
          refine ⟨⟨hpos, hdir, htot, hne⟩, ?_, h1, h2⟩
          show s.distMoved + 1 < s.distRun
          omega
        case isFalse hR =>
          refine ⟨⟨hpos, hdir, htot, hne⟩, ?_, h1, h2⟩
          show s.distMoved + 1 < s.distTotal
          omega
      case isFalse hA =>
        refine ⟨⟨hpos, hdir, htot, hne⟩, ?_, h1, h2, h3⟩
        show s.distMoved + 1 < s.distAccel
        omega
  | DECEL =>
      rw [hst] at h
      obtain ⟨⟨hpos, hdir, htot, hne⟩, hlt, h1, h2⟩ := h
      simp only [pulse, hst, reduceCtorEq, reduceIte, ite_true, ite_false, if_true,
        if_false]
      split
      case isTrue hT =>
        exact ⟨stop_pos_eq _ hpos hdir
          (by show s.distMoved + 1 = distBetween p t; omega), rfl, rfl, rfl, rfl⟩
      case isFalse hT =>
        refine ⟨⟨hpos, hdir, htot, hne⟩, ?_, h1, h2⟩
        show s.distMoved + 1 < s.distTotal
        omega

theorem moveInv_move (p t : Int) (ct : Nat) (s : Stepper) (h : moveInv p t s) :
    moveInv p t (move ct s) := by
  cases hst : s.kissState with
  | STOPPED =>
      have hmv : move ct s = s := by
        simp [move, isMoving, hst]
      rw [hmv]
      exact h
  | STARTING =>
      unfold moveInv at h
      rw [hst] at h
      obtain ⟨⟨hpos, hdir, htot, hne⟩, hm0, h1, h2, h3⟩ := h
      unfold moveInv
      simp only [move, isMoving, hst, reduceCtorEq, reduceIte, ite_true, ite_false,
        if_true, if_false, Bool.false_eq_true]
      split
      case isTrue hA =>
        refine ⟨⟨hpos, hdir, htot, hne⟩, ?_, h1, h2, h3⟩
        show s.distMoved < s.distAccel
        omega
      case isFalse hA =>
        split
        case isTrue hR =>
          refine ⟨⟨hpos, hdir, htot, hne⟩, ?_, h1, h2⟩
          show s.distMoved < s.distRun
          omega
        case isFalse hR =>
          split
          case isTrue hT =>
            refine ⟨⟨hpos, hdir, htot, hne⟩, ?_, h1, h2⟩
            show s.distMoved < s.distTotal
            omega
          case isFalse hT =>
            exfalso
            have := distBetween_pos hne
            omega
  | RUN =>
      unfold moveInv
      simp only [move, isMoving, hst, ite_true, if_true]
      split
      case isTrue hdue => exact moveInv_pulse p t s h (by rw [hst]; rfl)
      case isFalse hdue => exact h
  | ACCEL =>
      unfold moveInv
      simp only [move, isMoving, hst, ite_true, if_true]
      split
      case isTrue hdue => exact moveInv_pulse p t s h (by rw [hst]; rfl)
      case isFalse hdue => exact h
  | DECEL =>
      unfold moveInv
      simp only [move, isMoving, hst, ite_true, if_true]
      split
      case isTrue hdue => exact moveInv_pulse p t s h (by rw [hst]; rfl)
      case isFalse hdue => exact h

theorem moveInv_runMove (p t : Int) (s : Stepper) (ts : List Nat)
    (h : moveInv p t s) : moveInv p t (runMove s ts) := by
  induction ts generalizing s with
  | nil => exact h
  | cons ct ts ih => exact ih (move ct s) (moveInv_move p t ct s h)

theorem prepareMove_moveInv (q : Rat) (target : Int) (s s2 : Stepper)
    (hm0 : s.distMoved = 0) (hp : prepareMove q target s = (true, s2)) :
    moveInv s.pos (constrain target s.reverseLimit s.forwardLimit) s2 := by
  obtain ⟨hst, hne, hms, hks, hpos, hdir, hdm, htot, hsp, hacc, hf, hr, hprof⟩ :=
    prepareMove_cases q target s s2 hp
  unfold moveInv
  rw [hks]
  have hd0 : 0 < distBetween s.pos (constrain target s.reverseLimit s.forwardLimit) :=
    distBetween_pos hne
  refine ⟨⟨hpos, hdir, htot, hne⟩, by omega, ?_, ?_, ?_⟩ <;>
  · rcases hprof with ⟨ha, hcond, hda, hdr, hrest⟩ | ⟨ha, hcond, hda, hdr, hrest⟩ |
      ⟨ha, hda, hdr, hrest⟩
    all_goals omega

theorem triInv_move (ct : Nat) (s : Stepper) (h : triInv s) : triInv (move ct s) := by
  obtain ⟨hda, hnr⟩ := h
  cases hst : s.kissState with
  | STOPPED =>
      have hmv : move ct s = s := by simp [move, isMoving, hst]
      rw [hmv]
      exact ⟨hda, hnr⟩
  | STARTING =>
      simp only [move, isMoving, hst, reduceCtorEq, reduceIte, ite_true, ite_false,
        if_true, if_false, Bool.false_eq_true]
      split
      case isTrue hA =>
        exact ⟨hda, by show (ACCEL : KissState) ≠ RUN; decide⟩
      case isFalse hA =>
        split
        case isTrue hR =>
          exfalso
          have hR2 : s.distRun ≠ 0 := hR
          have hA2 : ¬s.distAccel ≠ 0 := hA
          omega
        case isFalse hR =>
          split
          case isTrue hT =>
            exact ⟨hda, by show (DECEL : KissState) ≠ RUN; decide⟩
          case isFalse hT =>
            exact ⟨rfl, by show (STOPPED : KissState) ≠ RUN; decide⟩
  | RUN => exact absurd hst hnr
  | ACCEL =>
      simp only [move, isMoving, hst, ite_true, if_true]
      split
      case isTrue hdue =>
        simp only [pulse, hst, reduceCtorEq, reduceIte, ite_true, ite_false, if_true,
          if_false]
        split
        case isTrue hA =>
          split
          case isTrue hR => exact absurd hda hR
          case isFalse hR =>
            exact ⟨hda, by show (DECEL : KissState) ≠ RUN; decide⟩
        case isFalse hA =>
          exact ⟨hda, by show (ACCEL : KissState) ≠ RUN; decide⟩
      case isFalse hdue => exact ⟨hda, hnr⟩
  | DECEL =>
      simp only [move, isMoving, hst, ite_true, if_true]
      split
      case isTrue hdue =>
        simp only [pulse, hst, reduceCtorEq, reduceIte, ite_true, ite_false, if_true,
          if_false]
        split
        case isTrue hT =>
          exact ⟨rfl, by show (STOPPED : KissState) ≠ RUN; decide⟩
        case isFalse hT =>
          exact ⟨hda, by show (DECEL : KissState) ≠ RUN; decide⟩
      case isFalse hdue => exact ⟨hda, hnr⟩

theorem triInv_runMove (s : Stepper) (ts : List Nat) (h : triInv s) :
    triInv (runMove s ts) := by
  induction ts generalizing s with
  | nil => exact h
  | cons ct ts ih => exact ih (move ct s) (triInv_move ct s h)

theorem moveInv_profileInv (p t : Int) (s : Stepper) (h : moveInv p t s) :
    profileInv s := by
  unfold moveInv at h
  unfold profileInv
  cases hst : s.kissState <;> rw [hst] at h
  case STOPPED =>
    obtain ⟨h1, h2, h3, h4, h5⟩ := h
    exact ⟨by omega, by omega, by omega⟩
  case STARTING =>
    obtain ⟨hb, h1, h2, h3, h4⟩ := h
    exact ⟨by omega, h2, h3⟩
  case RUN =>
    obtain ⟨hb, h1, h2, h3⟩ := h
    exact ⟨by omega, h2, h3⟩
  case ACCEL =>
    obtain ⟨hb, h1, h2, h3, h4⟩ := h
    exact ⟨by omega, h2, h3⟩
  case DECEL =>
    obtain ⟨hb, h1, h2, h3⟩ := h
    exact ⟨by omega, h2, h3⟩

theorem div_round_aux (n m : Nat) (hm : 0 < m) :
    n / m + (if m / 2 ≤ n % m then 1 else 0)
      = (2 * n + m) / (2 * m) + (if m % 2 = 1 ∧ n % m = m / 2 then 1 else 0) := by
  have h0 := Nat.div_add_mod n m
  have hr : n % m < m := Nat.mod_lt _ hm
  have hy : 0 < 2 * m := by omega
  have h2n : 2 * n + m = 2 * (n % m) + m + 2 * m * (n / m) := by
    conv_lhs => rw [← h0]
    ring
  rw [h2n, Nat.add_mul_div_left (2 * (n % m) + m) (n / m) hy]
  have hsmall : (2 * (n % m) + m) / (2 * m) = if m ≤ 2 * (n % m) then 1 else 0 := by
    split
    case isTrue hge =>
      apply Nat.div_eq_of_lt_le
      · omega
      · omega
    case isFalse hlt => exact Nat.div_eq_of_lt (by omega)
  rw [hsmall]
  rcases Nat.even_or_odd m with he | ho
  · obtain ⟨k, hk⟩ := he
    split_ifs <;> omega
  · obtain ⟨k, hk⟩ := ho
    split_ifs <;> omega

theorem prepareMove_fail (q : Rat) (target : Int) (s : Stepper)
    (h : s.kissState ≠ STOPPED ∨
      constrain target s.reverseLimit s.forwardLimit = s.pos ∨ s.maxSpeed = 0) :
    prepareMove q target s = (false, s) := by
  simp only [prepareMove, enable_if_eq]
  rcases h with h | h | h
  · rw [if_neg h]
  · split
    case isTrue hst =>
      split
      case isTrue hc => exact absurd h hc.1
      case isFalse hc => rfl
    case isFalse hst => rfl
  · split
    case isTrue hst =>
      split
      case isTrue hc => exact absurd hc.2 (by omega)
      case isFalse hc => rfl
    case isFalse hst => rfl

/-- C2: a prepareMove call from any state other than Stopped, or from Stopped
with the clamped target equal to the current position or with maxSpeed zero,
returns false and leaves the whole object unchanged. -/
theorem prepareMove_rejects_without_change (q : Rat) (target : Int) (s : Stepper)
    (h : s.kissState ≠ STOPPED ∨
      constrain target s.reverseLimit s.forwardLimit = s.pos ∨ s.maxSpeed = 0) :
    prepareMove q target s = (false, s) :=
  prepareMove_fail q target s h

/-- C2 witness: a concrete call while the controller is in the Cruising state
returns false and changes nothing. -/
theorem prepareMove_rejects_without_change_inst :
    prepareMove 0 7 { idle with kissState := RUN } =
      (false, { idle with kissState := RUN }) :=
  prepareMove_rejects_without_change 0 7 { idle with kissState := RUN }
    (Or.inl (by decide))

/-- C10: a prepareMove call from Stopped whose raw target lies strictly
beyond the limit at which the controller already rests is rejected with no
state change, because the clamp makes the clamped target equal to the current
position. -/
theorem prepareMove_at_limit_rejected (q : Rat) (target : Int) (s : Stepper)
    (hst : s.kissState = STOPPED) (hlim : s.reverseLimit ≤ s.forwardLimit)
    (h : s.pos = s.forwardLimit ∧ s.forwardLimit < target ∨
         s.pos = s.reverseLimit ∧ target < s.reverseLimit) :
    prepareMove q target s = (false, s) := by
  have hc : constrain target s.reverseLimit s.forwardLimit = s.pos := by
    unfold constrain
    rcases h with ⟨hp, ht⟩ | ⟨hp, ht⟩ <;> split_ifs <;> omega
  exact prepareMove_fail q target s (Or.inr (Or.inl hc))

/-- C10 witness: resting at the forward limit 100, a request for 150 is
rejected and the object, in particular its enabled flag, is unchanged. -/
theorem prepareMove_at_limit_rejected_inst :
    prepareMove 0 150 { idle with pos := 100 } = (false, { idle with pos := 100 }) :=
  prepareMove_at_limit_rejected 0 150 { idle with pos := 100 } (by decide)
    (by decide) (Or.inl (by decide))

/-- C7: decelerate from a moving phase with nonzero acceleration replans the
move so that the deceleration distance is the distance-to-stop clamped to the
distance remaining, zeroes the acceleration and cruise boundaries and forces
Decelerating; with zero acceleration it equals stop; from Stopped it changes
nothing. -/
theorem decelerate_spec (s : Stepper) :
    (isMoving s.kissState = true → 0 < s.accel →
      decelerate s = { s with
        distAccel := 0
        distRun := 0
        distTotal := s.distMoved + min (calcDecelDist s) (getDistRemaining s)
        kissState := DECEL }) ∧
    (isMoving s.kissState = true → s.accel = 0 → decelerate s = stop s) ∧
    (s.kissState = STOPPED → decelerate s = s) := by
  refine ⟨?_, ?_, ?_⟩
  · intro hmv ha
    have hmin : (if getDistRemaining s < calcDecelDist s then getDistRemaining s
        else calcDecelDist s) = min (calcDecelDist s) (getDistRemaining s) := by
      rw [Nat.min_def]
      split_ifs <;> omega
    simp only [decelerate, hmv, if_true, ha, ite_true]
    rw [hmin]
  · intro hmv ha
    simp [decelerate, hmv, ha]
  · intro hst
    simp [decelerate, isMoving, hst]

/-- C7 witness: the concrete decelerating state sC7, one step into a
three-step move, is replanned to stop after the clamped deceleration
distance, and that clamped distance evaluates to zero. -/
theorem decelerate_spec_inst :
    decelerate sC7 = { sC7 with
      distAccel := 0
      distRun := 0
      distTotal := sC7.distMoved + min (calcDecelDist sC7) (getDistRemaining sC7)
      kissState := DECEL } ∧
    min (calcDecelDist sC7) (getDistRemaining sC7) = 0 := by
  refine ⟨(decelerate_spec sC7).1 (by decide) (by decide), ?_⟩
  norm_num [calcDecelDist, getDistRemaining, toU32, sC7, idle]

/-- C6: advance in the Starting state records the current time as the last
pulse time, emits no pulse (the moved distance and the position do not
change), and enters the first phase with nonzero distance in the order
Accelerating, Cruising, Decelerating; with all three distances zero it runs
stop and ends Stopped. -/
theorem advance_starting_transition (ct : Nat) (s : Stepper)
    (hst : s.kissState = STARTING) (hm0 : s.distMoved = 0) :
    (move ct s).distMoved = 0 ∧
    (move ct s).pos = s.pos ∧
    (move ct s).lastStepTime = ct % U32 ∧
    (s.distAccel ≠ 0 → (move ct s).kissState = ACCEL) ∧
    (s.distAccel = 0 → s.distRun ≠ 0 → (move ct s).kissState = RUN) ∧
    (s.distAccel = 0 → s.distRun = 0 → s.distTotal ≠ 0 →
      (move ct s).kissState = DECEL) ∧
    (s.distAccel = 0 → s.distRun = 0 → s.distTotal = 0 →
      move ct s = stop { s with lastStepTime := ct % U32 } ∧
      (move ct s).kissState = STOPPED) := by
  simp only [move, isMoving, hst, reduceCtorEq, reduceIte, ite_true, ite_false,
    if_true, if_false, Bool.false_eq_true]
  by_cases hA : s.distAccel = 0 <;> by_cases hR : s.distRun = 0 <;>
    by_cases hT : s.distTotal = 0 <;>
    simp only [hA, hR, hT, ne_eq, not_true_eq_false, not_false_eq_true, ite_true,
      ite_false, if_true, if_false] <;>
    norm_num [stop, updatePos, hm0]

/-- C6 witness: from the concrete Starting state sC6, whose only nonzero
distance is the cruise distance, one advance call enters Cruising without a
pulse and records the call time. -/
theorem advance_starting_transition_inst :
    (move 5 sC6).kissState = RUN ∧ (move 5 sC6).distMoved = 0 ∧
    (move 5 sC6).lastStepTime = 5 % U32 := by
  have h := advance_starting_transition 5 sC6 (by decide) (by decide)
  exact ⟨h.2.2.2.2.1 (by decide) (by decide), h.1, h.2.2.1⟩

/-- C1: after a successful prepareMove from a quiescent Stopped state, any
sequence of advance calls that ends with the controller Stopped leaves the
position exactly at the target clamped into the soft limits. -/
theorem move_completes_at_clamped_target (q : Rat) (target : Int)
    (s s2 : Stepper) (ts : List Nat) (hm0 : s.distMoved = 0)
    (hp : prepareMove q target s = (true, s2))
    (hstop : (runMove s2 ts).kissState = STOPPED) :
    (runMove s2 ts).pos = constrain target s.reverseLimit s.forwardLimit := by
  have hinv := moveInv_runMove s.pos (constrain target s.reverseLimit s.forwardLimit)
    s2 ts (prepareMove_moveInv q target s s2 hm0 hp)
  unfold moveInv at hinv
  rw [hstop] at hinv
  exact hinv.1

/-- C1 witness: a concrete two-step move at maxSpeed 4 from position 0 to
target 2 finishes Stopped at position 2, the clamp of 2 into the limits. -/
theorem move_completes_at_clamped_target_inst :
    (runMove (prepareMove 0 2 idle).2 [0, 250000, 500000]).pos =
      constrain 2 idle.reverseLimit idle.forwardLimit :=
  move_completes_at_clamped_target 0 2 idle (prepareMove 0 2 idle).2
    [0, 250000, 500000] (by decide) (Prod.ext rfl rfl) (by decide)

/-- C3: for a successful prepareMove with nonzero acceleration, if the
maximum acceleration distance reaches half the clamped distance the profile
is triangular with both boundaries at half the distance (integer division)
and the Cruising state is never entered by any later advance calls;
otherwise the cruise boundary is the distance minus the acceleration
distance. -/
theorem prepareMove_profile_shape (q : Rat) (target : Int) (s s2 : Stepper)
    (ha : s.accel ≠ 0) (hp : prepareMove q target s = (true, s2)) :
    (distBetween s.pos (constrain target s.reverseLimit s.forwardLimit) / 2 ≤
        calcMaxAccelDist s →
      s2.distAccel =
        distBetween s.pos (constrain target s.reverseLimit s.forwardLimit) / 2 ∧
      s2.distRun = s2.distAccel ∧
      ∀ ts : List Nat, (runMove s2 ts).kissState ≠ RUN) ∧
    (calcMaxAccelDist s <
        distBetween s.pos (constrain target s.reverseLimit s.forwardLimit) / 2 →
      s2.distAccel = calcMaxAccelDist s ∧
      s2.distRun =
        distBetween s.pos (constrain target s.reverseLimit s.forwardLimit) -
          calcMaxAccelDist s) := by
  obtain ⟨hst, hne, hms, hks, hpos, hdir, hdm, htot, hsp, hacc, hf, hr, hprof⟩ :=
    prepareMove_cases q target s s2 hp
  constructor
  · intro htri
    rcases hprof with ⟨h1, h2, hda, hdr, hsi, hw, hmx⟩ |
      ⟨h1, h2, hda, hdr, hsi, hw, hmx⟩ | ⟨h1, hrest⟩
    · refine ⟨hda, hdr, ?_⟩
      intro ts
      exact (triInv_runMove s2 ts ⟨hdr, by rw [hks]; decide⟩).2
    · omega
    · exact absurd h1 ha
  · intro htrap
    rcases hprof with ⟨h1, h2, hda, hdr, hsi, hw, hmx⟩ |
      ⟨h1, h2, hda, hdr, hsi, hw, hmx⟩ | ⟨h1, hrest⟩
    · omega
    · exact ⟨hda, hdr⟩
    · exact absurd h1 ha

/-- C3 witness: maxSpeed 1000, acceleration 2, target 10 from 0 gives the
triangular profile with both boundaries at 5, and one advance call later the
controller is not Cruising. -/
theorem prepareMove_profile_shape_inst :
    (prepareMove 2 10 accel2).2.distAccel = 5 ∧
    (prepareMove 2 10 accel2).2.distRun = 5 ∧
    (runMove (prepareMove 2 10 accel2).2 [0]).kissState ≠ RUN := by
  have h := (prepareMove_profile_shape 2 10 accel2 (prepareMove 2 10 accel2).2
    (by decide) (Prod.ext rfl rfl)).1 (by decide)
  refine ⟨?_, ?_, h.2.2 [0]⟩
  · rw [h.1]
    decide
  · rw [h.2.1, h.1]
    decide

/-- C9 amended: stop, enable, disable and decelerate preserve the profile
invariant, and every state reached from a quiescent Stopped state by a
successful prepareMove followed by any sequence of advance calls satisfies
it.  The claim fails only for advance after a degenerate decelerate; see the
counterexample. -/
theorem profile_invariant_preserved :
    (∀ s : Stepper, profileInv (stop s)) ∧
    (∀ s : Stepper, profileInv s → profileInv (enable s)) ∧
    (∀ s : Stepper, profileInv (disable s)) ∧
    (∀ s : Stepper, profileInv s → profileInv (decelerate s)) ∧
    (∀ (q : Rat) (target : Int) (s s2 : Stepper), s.distMoved = 0 →
      prepareMove q target s = (true, s2) →
      ∀ ts : List Nat, profileInv (runMove s2 ts)) := by
  refine ⟨?_, ?_, ?_, ?_, ?_⟩
  · intro s
    exact ⟨Nat.le.refl, Nat.le.refl, Nat.le.refl⟩
  · intro s h
    exact h
  · intro s
    exact ⟨Nat.le.refl, Nat.le.refl, Nat.le.refl⟩
  · intro s h
    unfold decelerate
    split
    · split
      · exact ⟨Nat.le_add_right _ _, Nat.le.refl, Nat.zero_le _⟩
      · exact ⟨Nat.le.refl, Nat.le.refl, Nat.le.refl⟩
    · exact h
  · intro q target s s2 hm0 hp ts
    exact moveInv_profileInv _ _ _ (moveInv_runMove _ _ s2 ts
      (prepareMove_moveInv q target s s2 hm0 hp))

/-- C9 counterexample: from the quiescent controller accel2, the public call
sequence prepareMove(2), advance, advance, decelerate reaches the state sR4,
which satisfies the profile invariant, and the next advance pulse violates
it: the moved distance then exceeds the total distance. -/
theorem profile_invariant_cex :
    (prepareMove 2 2 accel2).2 = sR1 ∧
    move 0 sR1 = sR2 ∧
    move 500000 sR2 = sR3 ∧
    decelerate sR3 = sR4 ∧
    profileInv sR4 ∧
    ¬ profileInv (move 1250000 sR4) := by
  refine ⟨?_, ?_, ?_, ?_, ?_, ?_⟩
  · norm_num +decide [prepareMove, enable_if_eq, constrain, distBetween,
      calcMaxAccelDist, toU32, ONE_SECOND, accel2, idle, sR1, Int.toNat_ofNat]
  · norm_num +decide [move, isMoving, sR1, sR2, U32]
  · norm_num +decide [move, isMoving, sub32, U32, pulse, decelStep, toU32, sR2, sR1,
      sR3]
  · norm_num +decide [decelerate, isMoving, calcDecelDist, getDistRemaining, toU32,
      sR3, sR2, sR1, sR4]
  · norm_num [profileInv, sR4, sR3, sR2, sR1]
  · norm_num +decide [move, isMoving, sub32, U32, pulse, decelStep, toU32, profileInv,
      sR4, sR3, sR2, sR1]

/-- C9 witness: the invariant holds along a concrete prepareMove followed by
two advance calls. -/
theorem profile_invariant_preserved_inst :
    profileInv (runMove (prepareMove 0 2 idle).2 [0, 250000]) :=
  profile_invariant_preserved.2.2.2.2 0 2 idle (prepareMove 0 2 idle).2 (by decide)
    (Prod.ext rfl rfl) [0, 250000]

/-- C4 counterexample: at the concrete decelerating state sC4 a pulse
recomputes the real-valued interval to 15.6 microseconds but stores the whole
interval 15, which is more than half a microsecond away, hence not the value
rounded to the nearest whole microsecond. -/
theorem stepIntervalWhole_round_cex :
    (pulse sC4).stepInterval = 78/5 ∧ (pulse sC4).stepIntervalWhole = 15 ∧
    ¬ (|((pulse sC4).stepIntervalWhole : Rat) - (pulse sC4).stepInterval| ≤ 1/2) := by
  have ha : (pulse sC4).stepInterval = 78/5 := by
    norm_num +decide [pulse, sC4, idle, decelStep, toU32, U32]
  have hb : (pulse sC4).stepIntervalWhole = 15 := by
    norm_num +decide [pulse, sC4, idle, decelStep, toU32, U32]
  refine ⟨ha, hb, ?_⟩
  rw [ha, hb, abs_sub_comm, abs_of_nonneg (by norm_num)]
  norm_num

/-- C4 amended: at the initial computation in prepareMove with nonzero
acceleration and at every per-pulse recomputation in advance, the whole
interval stored is the real-valued stepInterval truncated to a whole
microsecond (the round-to-nearest correction in prepareMove never fires
because it compares the integer copy with itself), while the real-valued
copy keeps the unrounded value. -/
theorem stepIntervalWhole_truncation (q : Rat) (target : Int) (s s2 : Stepper) :
    (prepareMove q target s = (true, s2) → s.accel ≠ 0 →
      s2.stepInterval = (ONE_SECOND : Rat) / q ∧
      s2.stepIntervalWhole = toU32 s2.stepInterval) ∧
    (s.kissState = ACCEL → s.distMoved + 1 ≠ s.distAccel →
      (pulse s).stepInterval = accelStep s.stepInterval s.constMult ∧
      (pulse s).stepIntervalWhole = toU32 ((pulse s).stepInterval)) ∧
    (s.kissState = ACCEL → s.distMoved + 1 = s.distAccel → s.distRun = s.distAccel →
      (pulse s).stepInterval = decelStep s.stepInterval s.constMult ∧
      (pulse s).stepIntervalWhole = toU32 ((pulse s).stepInterval)) ∧
    (s.kissState = RUN → s.distMoved + 1 = s.distRun → s.distTotal ≠ s.distRun →
      (pulse s).stepInterval = decelStep s.stepInterval s.constMult ∧
      (pulse s).stepIntervalWhole = toU32 ((pulse s).stepInterval)) ∧
    (s.kissState = DECEL → s.distMoved + 1 ≠ s.distTotal →
      (pulse s).stepInterval = decelStep s.stepInterval s.constMult ∧
      (pulse s).stepIntervalWhole = toU32 ((pulse s).stepInterval)) := by
  refine ⟨?_, ?_, ?_, ?_, ?_⟩
  · intro hp ha
    obtain ⟨hst, hne, hms, hks, hpos, hdir, hdm, htot, hsp, hacc, hf, hr, hprof⟩ :=
      prepareMove_cases q target s s2 hp
    rcases hprof with ⟨h1, h2, hda, hdr, hsi, hw, hmx⟩ |
      ⟨h1, h2, hda, hdr, hsi, hw, hmx⟩ | ⟨h1, hrest⟩
    · exact ⟨hsi, by rw [hw, hsi]⟩
    · exact ⟨hsi, by rw [hw, hsi]⟩
    · exact absurd h1 ha
  · intro hst hcond
    simp only [pulse, hst, reduceCtorEq, reduceIte, ite_true, ite_false, if_true,
      if_false]
    rw [if_neg hcond]
    exact ⟨rfl, rfl⟩
  · intro hst h1 h2
    simp only [pulse, hst, reduceCtorEq, reduceIte, ite_true, ite_false, if_true,
      if_false]
    rw [if_pos h1, if_neg (by omega : ¬s.distRun ≠ s.distAccel)]
    exact ⟨rfl, rfl⟩
  · intro hst h1 h2
    simp only [pulse, hst, reduceCtorEq, reduceIte, ite_true, ite_false, if_true,
      if_false]
    rw [if_pos h1, if_neg h2]
    exact ⟨rfl, rfl⟩
  · intro hst hcond
    simp only [pulse, hst, reduceCtorEq, reduceIte, ite_true, ite_false, if_true,
      if_false]
    rw [if_neg hcond]
    exact ⟨rfl, rfl⟩

/-- C4 witness: the deceleration recomputation at the concrete state sC4
stores the truncation of the new real-valued interval. -/
theorem stepIntervalWhole_truncation_inst :
    (pulse sC4).stepInterval = decelStep sC4.stepInterval sC4.constMult ∧
    (pulse sC4).stepIntervalWhole = toU32 ((pulse sC4).stepInterval) :=
  (stepIntervalWhole_truncation 0 0 sC4 sC4).2.2.2.2 (by decide) (by decide)

/-- C5 counterexample: with acceleration zero and the odd maxSpeed 3 the
source stores the whole interval 333334, although ONE_SECOND / 3 rounded to
the nearest integer (ties up) is 333333; the stored value is more than half a
microsecond from the exact quotient. -/
theorem noaccel_rounding_cex :
    (prepareMove 0 5 speed3).2.stepIntervalWhole = 333334 ∧
    roundNearestTiesUp ONE_SECOND 3 = 333333 ∧
    ¬ (|((prepareMove 0 5 speed3).2.stepIntervalWhole : Rat) - (ONE_SECOND : Rat) / 3|
        ≤ 1/2) := by
  have h1 : (prepareMove 0 5 speed3).2.stepIntervalWhole = 333334 := by decide
  refine ⟨h1, by decide, ?_⟩
  rw [h1, abs_of_nonneg (by norm_num [ONE_SECOND])]
  norm_num [ONE_SECOND]

/-- C5 amended: for a successful prepareMove with acceleration zero the
stored whole interval is ONE_SECOND / maxSpeed rounded to the nearest
integer with ties rounded up, plus one extra in exactly the cases where
maxSpeed is odd and ONE_SECOND mod maxSpeed equals maxSpeed / 2 (there the
source rounds up although the true fraction is below one half). -/
theorem noaccel_rounding_rule (q : Rat) (target : Int) (s s2 : Stepper)
    (ha : s.accel = 0) (hp : prepareMove q target s = (true, s2)) :
    s2.stepIntervalWhole = roundNearestTiesUp ONE_SECOND s.maxSpeed +
      (if s.maxSpeed % 2 = 1 ∧ ONE_SECOND % s.maxSpeed = s.maxSpeed / 2 then 1
        else 0) := by
  obtain ⟨hst, hne, hms, hks, hpos, hdir, hdm, htot, hsp, hacc, hf, hr, hprof⟩ :=
    prepareMove_cases q target s s2 hp
  rcases hprof with ⟨h1, hrest⟩ | ⟨h1, hrest⟩ | ⟨h1, hda, hdr, hw, hsi⟩
  · exact absurd ha h1
  · exact absurd ha h1
  · rw [hw]
    unfold roundNearestTiesUp
    exact div_round_aux ONE_SECOND s.maxSpeed hms

/-- C5 witness: the rounding rule evaluated at the odd maxSpeed 3, where the
extra increment applies. -/
theorem noaccel_rounding_rule_inst :
    (prepareMove 0 5 speed3).2.stepIntervalWhole =
      roundNearestTiesUp ONE_SECOND 3 +
        (if 3 % 2 = 1 ∧ ONE_SECOND % 3 = 3 / 2 then 1 else 0) :=
  noaccel_rounding_rule 0 5 speed3 (prepareMove 0 5 speed3).2 (by decide)
    (Prod.ext rfl rfl)

/-- C8 counterexample: for maxSpeed 1 and acceleration 2 the planner produces
a trapezoidal profile with zero acceleration distance; the first advance call
enters Cruising with the real-valued interval still the initial 500000, not
the max-speed interval 1000000. -/
theorem cruise_not_maxSpeed_interval_cex :
    (prepareMove 2 2 slow1).2 = sT1 ∧ move 0 sT1 = sT2 ∧
    sT2.kissState = RUN ∧
    sT2.stepInterval ≠ (sT2.maxSpeedStepInterval : Rat) := by
  refine ⟨?_, ?_, by decide, by norm_num [sT1, sT2]⟩
  · norm_num +decide [prepareMove, enable_if_eq, constrain, distBetween,
      calcMaxAccelDist, toU32, ONE_SECOND, slow1, idle, sT1, Int.toNat_ofNat]
  · norm_num +decide [move, isMoving, sT1, sT2, U32]

/-- C8 amended: across one pulse, the real-valued interval strictly decreases
when the controller stays Accelerating, strictly increases when it stays
Decelerating, and stays unchanged when it stays Cruising; on the transition
from Accelerating to Cruising it is set to the max-speed interval. -/
theorem stepInterval_monotone (s : Stepper)
    (hT : 0 < s.stepInterval) (hc : 0 < s.constMult) :
    (s.kissState = ACCEL → (pulse s).kissState = ACCEL →
      (pulse s).stepInterval < s.stepInterval) ∧
    (s.kissState = DECEL → (pulse s).kissState = DECEL →
      s.stepInterval < (pulse s).stepInterval) ∧
    (s.kissState = RUN → (pulse s).kissState = RUN →
      (pulse s).stepInterval = s.stepInterval) ∧
    (s.kissState = ACCEL → (pulse s).kissState = RUN →
      (pulse s).stepInterval = (s.maxSpeedStepInterval : Rat)) := by
  have haccel : accelStep s.stepInterval s.constMult < s.stepInterval := by
    unfold accelStep
    nlinarith [mul_pos hc (pow_pos hT 3)]
  have hdecel : s.stepInterval < decelStep s.stepInterval s.constMult := by
    unfold decelStep
    nlinarith [mul_pos hc (pow_pos hT 3)]
  refine ⟨?_, ?_, ?_, ?_⟩
  · intro hst hst2
    simp only [pulse, hst, reduceCtorEq, reduceIte, ite_true, ite_false, if_true,
      if_false] at hst2 ⊢
    by_cases h1 : s.distMoved + 1 = s.distAccel
    · by_cases h2 : s.distRun ≠ s.distAccel
      · rw [if_pos h1, if_pos h2] at hst2
        simp at hst2
      · rw [if_pos h1, if_neg h2] at hst2
        simp at hst2
    · rw [if_neg h1]
      exact haccel
  · intro hst hst2
    simp only [pulse, hst, reduceCtorEq, reduceIte, ite_true, ite_false, if_true,
      if_false] at hst2 ⊢
    by_cases h1 : s.distMoved + 1 = s.distTotal
    · rw [if_pos h1] at hst2
      simp [stop, updatePos] at hst2
    · rw [if_neg h1]
      exact hdecel
  · intro hst hst2
    simp only [pulse, hst, reduceCtorEq, reduceIte, ite_true, ite_false, if_true,
      if_false] at hst2 ⊢
    by_cases h1 : s.distMoved + 1 = s.distRun
    · by_cases h2 : s.distTotal = s.distRun
      · rw [if_pos h1, if_pos h2] at hst2
        simp [stop, updatePos] at hst2
      · rw [if_pos h1, if_neg h2] at hst2
        simp at hst2
    · rw [if_neg h1]
  · intro hst hst2
    simp only [pulse, hst, reduceCtorEq, reduceIte, ite_true, ite_false, if_true,
      if_false] at hst2 ⊢
    by_cases h1 : s.distMoved + 1 = s.distAccel
    · by_cases h2 : s.distRun ≠ s.distAccel
      · rw [if_pos h1, if_pos h2]
      · rw [if_pos h1, if_neg h2] at hst2
        simp at hst2
    · rw [if_neg h1] at hst2
      simp at hst2

/-- C8 witness: at the concrete accelerating state sW8 the pulse stays
Accelerating and the interval strictly decreases, from 500000 to 250000. -/
theorem stepInterval_monotone_inst :
    (pulse sW8).stepInterval < sW8.stepInterval ∧
    (pulse sW8).stepInterval = 250000 := by
  constructor
  · exact (stepInterval_monotone sW8 (by norm_num [sW8, idle])
      (by norm_num [sW8, idle])).1 (by decide) (by decide)
  · norm_num +decide [pulse, sW8, idle, accelStep, toU32, U32]

end KissStepper
